import Mathlib

/-!
Verification development for the viz-inspect catalog / vote-aggregation
subsystem (`src/vizinspect`).

The backend file `src/vizinspect/backend/catalogs.py` present in the tree is
an older variant that stores per-user boolean flags on comments and does not
maintain a per-object vote tally.  The frontend worker
`src/vizinspect/frontend/actionworkers.py` (worker_insert_object_comments,
worker_get_objects, worker_get_object) calls a newer backend API
(`insert_object_comments` taking good_flags / max_good_votes / bad_flags /
max_bad_votes / max_all_votes, `get_objects` taking max_objects and returning
a reversed-order marker, `get_object` returning a review_status) which is not
present under the tree.  Those missing pieces — the consensus evaluator, the
vote mutation protocol, the completion gate and the page cap of the
pagination engine — are modelled here from the specification (each such
definition is marked `Modelled from the spec:`).  Everything else
(`update_object_flags`, `chunker`, `update_review_assignments`,
`update_review_assignments_from_file`, the page-count computation of the
workers, and the table prologues checked against the schema of
`backend/database.py`) is embedded directly from the source.
-/

namespace VizInspect

/-- Review status of a catalog object.  The spec (§3, §4.1) uses the string
values `incomplete`, `complete-good`, `complete-bad`; the frontend worker
`actionworkers.worker_get_objects` switches on exactly these three values. -/
inductive ReviewStatus where
  | incomplete
  | completeGood
  | completeBad
deriving DecidableEq, Repr

/-- Threshold configuration carried by
`actionworkers.worker_insert_object_comments` into the backend
(good_flags, max_good_votes, bad_flags, max_bad_votes, max_all_votes),
together with the full configured flag set (`flags_to_use` in
`catalogs.load_catalog`). -/
structure Config where
  flags : List String
  goodFlags : List String
  badFlags : List String
  maxGoodVotes : Nat
  maxBadVotes : Nat
  maxAllVotes : Nat

/-- A row of the vote ledger (the `object_comments` table): one voter's
current vote and comment on one object. -/
structure Entry where
  objectid : Nat
  voterid : Nat
  votername : String
  flags : String → Bool
  comment : String

/-- Mutable per-object state in the catalog store: the per-flag vote tally
and the derived review status. -/
structure ObjData where
  tally : String → Nat
  status : ReviewStatus

/-- The shared relational store: catalog objects indexed by objectid, plus
the vote ledger. -/
structure StoreState where
  objects : Nat → Option ObjData
  ledger : List Entry

/-- A vote submission: (voterid, votername, objectid, chosenFlag, isAdmin,
comment), as assembled by the save-object handler. -/
structure Vote where
  voterid : Nat
  votername : String
  objectid : Nat
  chosenFlag : String
  isAdmin : Bool
  comment : String

/-- Typed errors of the vote path (spec §7 taxonomy). -/
inductive VoteError where
  | notFound
  | invalidVote
  | alreadyReviewed
  | objectComplete
  | ledgerCorruption
deriving DecidableEq, Repr

/-- Modelled from the spec: the Consensus Evaluator (§4.1) of the newer
backend `insert_object_comments` (absent from the tree; its caller
`actionworkers.worker_insert_object_comments` passes the thresholds).
goodSum is the sum of tally counts over the configured good flags, badSum
over the bad flags; good is checked strictly before bad; `maxAllVotes` has
no distinct branch and collapses into `incomplete`. -/
def evaluate (cfg : Config) (tally : String → Nat) : ReviewStatus :=
  let goodSum := (cfg.goodFlags.map tally).sum
  let badSum := (cfg.badFlags.map tally).sum
  if cfg.maxGoodVotes ≤ goodSum then ReviewStatus.completeGood
  else if cfg.maxBadVotes ≤ badSum then ReviewStatus.completeBad
  else ReviewStatus.incomplete

/-- Whether a ledger row belongs to the given (objectid, voterid) pair. -/
def entryMatches (e : Entry) (oid vid : Nat) : Bool :=
  e.objectid == oid && e.voterid == vid

/-- The ledger row of a given (objectid, voterid) pair, if any. -/
def findEntry (s : StoreState) (oid vid : Nat) : Option Entry :=
  s.ledger.find? (fun e => entryMatches e oid vid)

/-- Number of ledger rows for a given (objectid, voterid) pair. -/
def pairCount (s : StoreState) (oid vid : Nat) : Nat :=
  s.ledger.countP (fun e => entryMatches e oid vid)

/-- The configured flags set to true in a ledger row (used for the one-hot
check of the vote-change path). -/
def setFlagsOf (cfg : Config) (e : Entry) : List String :=
  cfg.flags.filter (fun f => e.flags f)

/-- Number of ledger rows of the given object whose flags map has `f` set to
true. -/
def ledgerCount (s : StoreState) (oid : Nat) (f : String) : Nat :=
  (s.ledger.filter (fun e => e.objectid == oid && e.flags f)).length

/-- The stored tally count of flag `f` on object `oid` (0 if the object does
not exist). -/
def tallyOf (s : StoreState) (oid : Nat) (f : String) : Nat :=
  match s.objects oid with
  | some obj => obj.tally f
  | none => 0

/-- Tally/ledger consistency (spec §8): for every object and every
configured flag, the stored tally count equals the number of ledger rows of
that object with the flag set to true. -/
def consistent (cfg : Config) (s : StoreState) : Prop :=
  ∀ oid obj, s.objects oid = some obj →
    ∀ f, f ∈ cfg.flags → obj.tally f = ledgerCount s oid f

/-- Replace the catalog entry for one objectid. -/
def setObj (s : StoreState) (oid : Nat) (d : ObjData) : Nat → Option ObjData :=
  fun o => if o = oid then some d else s.objects o

/-- One-hot flags map for a chosen flag. -/
def oneHotFlags (chosen : String) : String → Bool :=
  fun f => f == chosen

/-- Modelled from the spec: the Vote Mutation Protocol (§4.2) of the newer
backend `insert_object_comments` (absent from the tree).  First vote by a
voter appends a one-hot ledger row and increments the chosen flag's tally;
a second non-admin vote rewrites the existing row in place and moves one
count from the previous flag to the chosen flag, failing with a
ledger-corruption error when the existing row is not exactly one-hot; the
admin path resets every flag count to 0, forces the chosen flag to the
sentinel count 2, and appends a row whose comment carries the
"ADMIN override" marker.  The status is recomputed by `evaluate` and the
three writes commit as one state transition (spec §5). -/
def castVote (cfg : Config) (v : Vote) (s : StoreState) :
    Except VoteError StoreState :=
  if v.chosenFlag ∈ cfg.flags then
    match s.objects v.objectid with
    | none => Except.error VoteError.notFound
    | some obj =>
      if v.isAdmin then
        let newTally : String → Nat :=
          fun f => if f = v.chosenFlag then 2 else 0
        let newEntry : Entry :=
          { objectid := v.objectid, voterid := v.voterid,
            votername := v.votername,
            flags := oneHotFlags v.chosenFlag,
            comment := "ADMIN override: " ++ v.comment }
        Except.ok
          { objects := setObj s v.objectid
              { tally := newTally, status := evaluate cfg newTally },
            ledger := s.ledger ++ [newEntry] }
      else
        match findEntry s v.objectid v.voterid with
        | none =>
          let newTally : String → Nat :=
            fun f => if f = v.chosenFlag then obj.tally f + 1 else obj.tally f
          let newEntry : Entry :=
            { objectid := v.objectid, voterid := v.voterid,
              votername := v.votername,
              flags := oneHotFlags v.chosenFlag,
              comment := v.comment }
          Except.ok
            { objects := setObj s v.objectid
                { tally := newTally, status := evaluate cfg newTally },
              ledger := s.ledger ++ [newEntry] }
        | some e =>
          match setFlagsOf cfg e with
          | [prev] =>
            let t1 : String → Nat :=
              fun f => if f = prev then obj.tally f - 1 else obj.tally f
            let newTally : String → Nat :=
              fun f => if f = v.chosenFlag then t1 f + 1 else t1 f
            Except.ok
              { objects := setObj s v.objectid
                  { tally := newTally, status := evaluate cfg newTally },
                ledger := s.ledger.map (fun e2 =>
                  if entryMatches e2 v.objectid v.voterid then
                    { e2 with flags := oneHotFlags v.chosenFlag,
                              comment := v.comment }
                  else e2) }
          | _ => Except.error VoteError.ledgerCorruption
  else Except.error VoteError.invalidVote

/-- Modelled from the spec: the store visible after the enclosing
transaction — the new state when the operation commits, the unchanged old
state when it fails and rolls back (spec §5: the three writes are one
all-or-nothing transaction). -/
def commitState (s : StoreState) (r : Except VoteError StoreState) :
    StoreState :=
  match r with
  | Except.ok s2 => s2
  | Except.error _ => s

/-- Modelled from the spec: the upstream completion gate (§4.2 guardrail;
the save-object handler variant that reads the `review_status` and
`already_reviewed` fields returned by `actionworkers.worker_get_object` is
absent from the tree).  A non-admin submission against an object already at
`complete-good`/`complete-bad` is rejected — with `AlreadyReviewed` when
this voter has a prior ledger row, `ObjectComplete` when not — and only
otherwise is the vote mutation protocol invoked. -/
def submitVote (cfg : Config) (v : Vote) (s : StoreState) :
    Except VoteError StoreState :=
  match s.objects v.objectid with
  | none => Except.error VoteError.notFound
  | some obj =>
    if (obj.status = ReviewStatus.completeGood ∨
        obj.status = ReviewStatus.completeBad) ∧ v.isAdmin = false then
      match findEntry s v.objectid v.voterid with
      | some _ => Except.error VoteError.alreadyReviewed
      | none => Except.error VoteError.objectComplete
    else castVote cfg v s

/-- Embedded from `backend/catalogs.py` `update_object_flags`
(lines 909-996): one UPDATE that overwrites the object's stored flags value
with the caller-supplied mapping, touching neither the comments/ledger table
nor the status and consulting nothing else. -/
def update_object_flags (objectid : Nat) (flags : String → Nat)
    (s : StoreState) : StoreState :=
  { s with objects := fun o =>
      if o = objectid then
        match s.objects o with
        | some obj => some { obj with tally := flags }
        | none => none
      else s.objects o }

/-- Modelled from the spec: one page of the keyset Query/Pagination Engine
(§4.4) with `anchor=start` — the newer `get_objects` taking `max_objects`
and called by both frontend workers is absent from the tree; the
`keyid >= start_keyid` predicate follows `backend/catalogs.py`
`get_objects` lines 740-743, and the cap at pageSize rows and the ascending
scan order are the spec's words.  `rows` is the filtered object set in
keyid (insertion) order. -/
def page (rows : List Nat) (startKeyid pageSize : Nat) : List Nat :=
  (rows.filter (fun k => startKeyid ≤ k)).take pageSize

/-- Last keyid returned on a page (0 for an empty page). -/
def lastKeyidOf (p : List Nat) : Nat := p.getLastD 0

/-- Embedded from the page-count computation of
`actionhandlers.worker_get_objects` (lines 291-294) and
`actionworkers.worker_get_objects` (lines 154-157):
`n_pages = int(count/max) + 1` when `count % max` is nonzero, else
`int(count/max)` (Python's float truncation modelled as exact floor
division). -/
def n_pages (list_count max_objects : Nat) : Nat :=
  if list_count % max_objects ≠ 0 then list_count / max_objects + 1
  else list_count / max_objects

/-- One row of the `object_reviewers` table: an objectid and its (nullable)
assigned reviewer userid. -/
abbrev ReviewerTable := List (Nat × Option Nat)

/-- Embedded from `backend/catalogs.py` `update_review_assignments`
(lines 1003-1106): with `do_unassign=False` one INSERT of a row
(objectid, reviewer_userid) per listed objectid; with `do_unassign=True`
one UPDATE setting userid to NULL on every row whose objectid is listed.
Either statement runs in its own transaction. -/
def update_review_assignments (t : ReviewerTable) (objectid_list : List Nat)
    (reviewer_userid : Nat) (do_unassign : Bool) : ReviewerTable :=
  if do_unassign then
    t.map (fun r => if r.1 ∈ objectid_list then (r.1, none) else r)
  else
    t ++ objectid_list.map (fun x => (x, some reviewer_userid))

/-- Embedded from `backend/catalogs.py` `chunker` (lines 1110-1115):
successive slices `seq[pos:pos+size]` for `pos` in steps of `size` (empty
when `size` is 0, where the Python `range` step would be invalid). -/
def chunker : List α → Nat → List (List α)
  | _, 0 => []
  | [], _ => []
  | a :: l, k + 1 =>
    (a :: l).take (k + 1) :: chunker ((a :: l).drop (k + 1)) (k + 1)
termination_by seq _ => seq.length
decreasing_by
  simp only [List.drop_succ_cons, List.length_drop, List.length_cons]
  omega

/-- Apply `update_review_assignments` once per chunk, each call in its own
transaction, as the inner loop of `update_review_assignments_from_file`
does (lines 1179-1187). -/
def applyChunks (t : ReviewerTable) (chunks : List (List Nat)) (uid : Nat)
    (do_unassign : Bool) : ReviewerTable :=
  chunks.foldl
    (fun acc c => update_review_assignments acc c uid do_unassign) t

/-- Embedded from `backend/catalogs.py`
`update_review_assignments_from_file` (lines 1119-1190): the assignment
pairs arrive grouped by reviewer userid; a group's userid of 0 selects
unassignment, any other userid selects assignment to that reviewer; each
group's objectids are processed chunk-by-chunk through `chunker`. -/
def update_review_assignments_from_file (t : ReviewerTable)
    (groups : List (Nat × List Nat)) (chunksize : Nat) : ReviewerTable :=
  groups.foldl
    (fun acc g => applyChunks acc (chunker g.2 chunksize) g.1 (g.1 == 0)) t

/-- The table names defined on the `VIZINSPECT` metadata by
`backend/database.py` (lines 33-94): `object_catalog`, `object_images`,
`object_comments` — and nothing else. -/
def vizinspect_tables : List String :=
  ["object_catalog", "object_images", "object_comments"]

/-- Embedded table-dereference prologue of `catalogs.get_object_count`
(lines 344-346): the tables looked up in `meta.tables`, in order, before
any query is built. -/
def get_object_count_tables : List String :=
  ["object_catalog", "object_comments", "object_reviewers"]

/-- Embedded table-dereference prologue of `catalogs.get_object`
(lines 474-477). -/
def get_object_tables : List String :=
  ["object_catalog", "object_images", "object_comments", "object_reviewers"]

/-- Embedded table-dereference prologue of `catalogs.get_objects`
(lines 623-626). -/
def get_objects_tables : List String :=
  ["object_catalog", "object_images", "object_comments", "object_reviewers"]

/-- Embedded table-dereference prologue of
`catalogs.update_review_assignments` (line 1074). -/
def update_review_assignments_tables : List String :=
  ["object_reviewers"]

/-- Sequential `meta.tables[name]` dereference: the first name missing from
the bound metadata raises a KeyError, modelled as an error carrying that
name; only when every name resolves does the operation proceed to issue its
query. -/
def resolveTables (schema : List String) : List String → Except String Unit
  | [] => Except.ok ()
  | t :: rest =>
    if t ∈ schema then resolveTables schema rest else Except.error t

/-- An example threshold configuration matching the spec's running example:
goodFlags = a,b and badFlags = c,d, maxGoodVotes = maxBadVotes = 2. -/
def exampleConfig : Config :=
  { flags := ["a", "b", "c", "d"],
    goodFlags := ["a", "b"],
    badFlags := ["c", "d"],
    maxGoodVotes := 2,
    maxBadVotes := 2,
    maxAllVotes := 3 }

/-- Ledger row of the vote-change and admin-override examples: voter 20
voted flag a on object 1. -/
def priorEntry : Entry :=
  { objectid := 1, voterid := 20, votername := "U",
    flags := oneHotFlags "a", comment := "first" }

/-- Object state of the vote-change example: tally a:1, incomplete. -/
def voteChangeObj : ObjData :=
  { tally := fun f => if f = "a" then 1 else 0,
    status := ReviewStatus.incomplete }

/-- Store of the vote-change example: object 1 carrying voter 20's vote
for a. -/
def voteChangeState : StoreState :=
  { objects := fun o => if o = 1 then some voteChangeObj else none,
    ledger := [priorEntry] }

/-- Voter 20 changes the vote on object 1 from a to c. -/
def changeVote : Vote :=
  { voterid := 20, votername := "U", objectid := 1,
    chosenFlag := "c", isAdmin := false, comment := "changed" }

/-- Object state of the admin-override example: tally a:1, c:1,
incomplete. -/
def adminObj : ObjData :=
  { tally := fun f => if f = "a" ∨ f = "c" then 1 else 0,
    status := ReviewStatus.incomplete }

/-- Store of the admin-override example: object 1 with tally a:1, c:1 and
a prior ledger row. -/
def adminState : StoreState :=
  { objects := fun o => if o = 1 then some adminObj else none,
    ledger := [priorEntry] }

/-- Admin voter 7 forces flag b on object 1. -/
def adminVote : Vote :=
  { voterid := 7, votername := "Admin", objectid := 1,
    chosenFlag := "b", isAdmin := true, comment := "override" }

/-- Object state of the completion-gate example: tally a:2, already
complete-good. -/
def completeObj : ObjData :=
  { tally := fun f => if f = "a" then 2 else 0,
    status := ReviewStatus.completeGood }

/-- Store of the completion-gate example: completed object 1 with one
ledger row by voter 20. -/
def completeState : StoreState :=
  { objects := fun o => if o = 1 then some completeObj else none,
    ledger := [priorEntry] }

/-- A late non-admin vote by new voter 31 against completed object 1. -/
def lateVote : Vote :=
  { voterid := 31, votername := "V", objectid := 1,
    chosenFlag := "c", isAdmin := false, comment := "late" }

/-- C1: the Consensus Evaluator returns complete-good exactly when the sum
of tally counts over the configured good flags reaches maxGoodVotes;
otherwise complete-bad exactly when the sum over the bad flags reaches
maxBadVotes; otherwise incomplete; and a tally satisfying both thresholds
is classified complete-good (good is checked strictly before bad). -/
theorem c1_consensus_evaluator (cfg : Config) (tally : String → Nat) :
    (evaluate cfg tally = ReviewStatus.completeGood ↔
      cfg.maxGoodVotes ≤ (cfg.goodFlags.map tally).sum) ∧
    (evaluate cfg tally = ReviewStatus.completeBad ↔
      ((cfg.goodFlags.map tally).sum < cfg.maxGoodVotes ∧
       cfg.maxBadVotes ≤ (cfg.badFlags.map tally).sum)) ∧
    (evaluate cfg tally = ReviewStatus.incomplete ↔
      ((cfg.goodFlags.map tally).sum < cfg.maxGoodVotes ∧
       (cfg.badFlags.map tally).sum < cfg.maxBadVotes)) ∧
    (cfg.maxGoodVotes ≤ (cfg.goodFlags.map tally).sum →
     cfg.maxBadVotes ≤ (cfg.badFlags.map tally).sum →
     evaluate cfg tally = ReviewStatus.completeGood) := by
  unfold evaluate
  by_cases h1 : cfg.maxGoodVotes ≤ (cfg.goodFlags.map tally).sum
  · simp only [h1, if_true]
    simp
    omega
  · by_cases h2 : cfg.maxBadVotes ≤ (cfg.badFlags.map tally).sum
    · simp only [h1, if_false, h2, if_true]
      simp [h1, h2]
      omega
    · simp [h1, h2]
      omega

/-- C1 witness: the Evaluator characterization at the spec's threshold
example with tally a:1, b:1, c:0, d:0 (which is complete-good). -/
theorem c1_consensus_evaluator_witness :
    (evaluate exampleConfig (fun f => if f = "a" ∨ f = "b" then 1 else 0) =
      ReviewStatus.completeGood ↔
      exampleConfig.maxGoodVotes ≤
        (exampleConfig.goodFlags.map
          (fun f => if f = "a" ∨ f = "b" then 1 else 0)).sum) ∧
    (evaluate exampleConfig (fun f => if f = "a" ∨ f = "b" then 1 else 0) =
      ReviewStatus.completeBad ↔
      ((exampleConfig.goodFlags.map
          (fun f => if f = "a" ∨ f = "b" then 1 else 0)).sum <
        exampleConfig.maxGoodVotes ∧
       exampleConfig.maxBadVotes ≤
        (exampleConfig.badFlags.map
          (fun f => if f = "a" ∨ f = "b" then 1 else 0)).sum)) ∧
    (evaluate exampleConfig (fun f => if f = "a" ∨ f = "b" then 1 else 0) =
      ReviewStatus.incomplete ↔
      ((exampleConfig.goodFlags.map
          (fun f => if f = "a" ∨ f = "b" then 1 else 0)).sum <
        exampleConfig.maxGoodVotes ∧
       (exampleConfig.badFlags.map
          (fun f => if f = "a" ∨ f = "b" then 1 else 0)).sum <
        exampleConfig.maxBadVotes)) ∧
    (exampleConfig.maxGoodVotes ≤
      (exampleConfig.goodFlags.map
        (fun f => if f = "a" ∨ f = "b" then 1 else 0)).sum →
     exampleConfig.maxBadVotes ≤
      (exampleConfig.badFlags.map
        (fun f => if f = "a" ∨ f = "b" then 1 else 0)).sum →
     evaluate exampleConfig (fun f => if f = "a" ∨ f = "b" then 1 else 0) =
      ReviewStatus.completeGood) :=
  c1_consensus_evaluator exampleConfig
    (fun f => if f = "a" ∨ f = "b" then 1 else 0)

/-- C8: for every filtered object count and every positive page size, the
page count computed by the object-list workers equals the ceiling of
count / pageSize — it equals (count + pageSize - 1) / pageSize, is 0 at
count 0, is count / pageSize when pageSize divides count, and is pinned by
the two ceiling inequalities. -/
theorem c8_total_page_count (c N : Nat) (hN : 0 < N) :
    n_pages c N = (c + N - 1) / N ∧
    (c = 0 → n_pages c N = 0) ∧
    (N ∣ c → n_pages c N = c / N) ∧
    c ≤ n_pages c N * N ∧
    n_pages c N * N < c + N := by
  have hmod : c % N < N := Nat.mod_lt _ hN
  have hsplit : c / N * N + c % N = c := Nat.div_add_mod' c N
  have hkey : (c + N - 1) / N = n_pages c N := by
    have h1 : c + N - 1 = c + (N - 1) := by omega
    rw [h1, Nat.add_div hN]
    have h2 : (N - 1) / N = 0 := Nat.div_eq_of_lt (by omega)
    have h3 : (N - 1) % N = N - 1 := Nat.mod_eq_of_lt (by omega)
    rw [h2, h3]
    unfold n_pages
    by_cases hr : c % N = 0
    · rw [if_neg (by omega), if_neg (by omega)]
      omega
    · rw [if_pos (by omega), if_pos (by omega)]
  have hup : c ≤ n_pages c N * N ∧ n_pages c N * N < c + N := by
    unfold n_pages
    by_cases hr : c % N = 0
    · rw [if_neg (by omega)]
      generalize hX : c / N * N = X at hsplit ⊢
      omega
    · rw [if_pos (by omega)]
      have hmul : (c / N + 1) * N = c / N * N + N := by
        rw [Nat.add_mul, Nat.one_mul]
      rw [hmul]
      generalize hX : c / N * N = X at hsplit ⊢
      omega
  refine ⟨hkey.symm, ?_, ?_, hup.1, hup.2⟩
  · intro h0
    subst h0
    simp [n_pages]
  · rintro ⟨k, rfl⟩
    simp [n_pages, Nat.mul_mod_right]

/-- C8 witness: the page count at count 5 and page size 2 (three pages). -/
theorem c8_total_page_count_witness :
    0 < 2 ∧
    (n_pages 5 2 = (5 + 2 - 1) / 2 ∧
     (5 = 0 → n_pages 5 2 = 0) ∧
     (2 ∣ 5 → n_pages 5 2 = 5 / 2) ∧
     5 ≤ n_pages 5 2 * 2 ∧
     n_pages 5 2 * 2 < 5 + 2) :=
  ⟨by decide, c8_total_page_count 5 2 (by decide)⟩

/-- C10: every metadata object built solely from `backend/database.py`'s own
schema lacks the `object_reviewers` table, so the table-dereference
prologues of get_object_count, get_object, get_objects and
update_review_assignments each fail with a missing-table lookup for
`object_reviewers` before issuing any query; with an externally supplied
`object_reviewers` table the same prologues all succeed. -/
theorem c10_object_reviewers_not_in_schema :
    resolveTables vizinspect_tables get_object_count_tables =
      Except.error "object_reviewers" ∧
    resolveTables vizinspect_tables get_object_tables =
      Except.error "object_reviewers" ∧
    resolveTables vizinspect_tables get_objects_tables =
      Except.error "object_reviewers" ∧
    resolveTables vizinspect_tables update_review_assignments_tables =
      Except.error "object_reviewers" ∧
    "object_reviewers" ∉ vizinspect_tables ∧
    resolveTables ("object_reviewers" :: vizinspect_tables)
      get_object_count_tables = Except.ok () ∧
    resolveTables ("object_reviewers" :: vizinspect_tables)
      get_object_tables = Except.ok () ∧
    resolveTables ("object_reviewers" :: vizinspect_tables)
      get_objects_tables = Except.ok () ∧
    resolveTables ("object_reviewers" :: vizinspect_tables)
      update_review_assignments_tables = Except.ok () :=
  ⟨rfl, rfl, rfl, rfl, by decide, rfl, rfl, rfl, rfl⟩

theorem setObj_self (s : StoreState) (oid : Nat) (d : ObjData) :
    setObj s oid d oid = some d := by
  simp [setObj]

theorem entryMatches_iff (e : Entry) (oid vid : Nat) :
    entryMatches e oid vid = true ↔ e.objectid = oid ∧ e.voterid = vid := by
  simp [entryMatches]

/-- C5: an admin vote on an existing object succeeds, forces the tally to 2
on the chosen flag and 0 on every other flag, appends a new ledger row
whose comment starts with the ADMIN override marker, and sets the review
status to the Evaluator applied to the forced tally. -/
theorem c5_admin_override (cfg : Config) (v : Vote) (s : StoreState)
    (obj : ObjData)
    (hobj : s.objects v.objectid = some obj)
    (hadmin : v.isAdmin = true)
    (hflag : v.chosenFlag ∈ cfg.flags) :
    ∃ s2, castVote cfg v s = Except.ok s2 ∧
      (∃ obj2, s2.objects v.objectid = some obj2 ∧
        obj2.tally v.chosenFlag = 2 ∧
        (∀ f, f ≠ v.chosenFlag → obj2.tally f = 0) ∧
        obj2.status = evaluate cfg obj2.tally) ∧
      (∃ en, s2.ledger = s.ledger ++ [en] ∧
        en.objectid = v.objectid ∧ en.voterid = v.voterid ∧
        en.comment = "ADMIN override: " ++ v.comment) := by
  unfold castVote
  rw [if_pos hflag, hobj, hadmin]
  simp only [if_true]
  refine ⟨_, rfl, ⟨_, setObj_self .., ?_, ?_, rfl⟩, ⟨_, rfl, rfl, rfl, rfl⟩⟩
  · simp
  · intro f hf
    simp [hf]

/-- C5 witness: the spec's admin-override example — object 1 with tally
a:1, c:1 (incomplete) and a prior ledger row; the admin forces flag b. -/
theorem c5_admin_override_witness :
    adminState.objects adminVote.objectid = some adminObj ∧
    adminVote.isAdmin = true ∧
    adminVote.chosenFlag ∈ exampleConfig.flags ∧
    (∃ s2, castVote exampleConfig adminVote adminState = Except.ok s2 ∧
      (∃ obj2, s2.objects adminVote.objectid = some obj2 ∧
        obj2.tally adminVote.chosenFlag = 2 ∧
        (∀ f, f ≠ adminVote.chosenFlag → obj2.tally f = 0) ∧
        obj2.status = evaluate exampleConfig obj2.tally) ∧
      (∃ en, s2.ledger = adminState.ledger ++ [en] ∧
        en.objectid = adminVote.objectid ∧ en.voterid = adminVote.voterid ∧
        en.comment = "ADMIN override: " ++ adminVote.comment)) :=
  ⟨rfl, rfl, by decide,
   c5_admin_override exampleConfig adminVote adminState adminObj rfl rfl
     (by decide)⟩

/-- C2: a second non-admin vote by a voter who already has a (one-hot)
ledger row for the object succeeds by rewriting that row in place — the
ledger length and the number of rows for the (objectid, voterid) pair are
unchanged, so at most one row per pair ever exists — and the tally moves
one count from the previously chosen flag to the newly chosen flag,
leaving every other flag's count unchanged. -/
theorem c2_vote_change (cfg : Config) (v : Vote) (s : StoreState)
    (obj : ObjData) (e : Entry) (prev : String)
    (hobj : s.objects v.objectid = some obj)
    (hadmin : v.isAdmin = false)
    (hflag : v.chosenFlag ∈ cfg.flags)
    (hfind : findEntry s v.objectid v.voterid = some e)
    (hone : setFlagsOf cfg e = [prev]) :
    ∃ s2, castVote cfg v s = Except.ok s2 ∧
      s2.ledger.length = s.ledger.length ∧
      pairCount s2 v.objectid v.voterid = pairCount s v.objectid v.voterid ∧
      (∃ obj2, s2.objects v.objectid = some obj2 ∧
        (prev ≠ v.chosenFlag →
          obj2.tally prev = obj.tally prev - 1 ∧
          obj2.tally v.chosenFlag = obj.tally v.chosenFlag + 1) ∧
        (∀ f, f ≠ prev → f ≠ v.chosenFlag → obj2.tally f = obj.tally f) ∧
        obj2.status = evaluate cfg obj2.tally) := by
  unfold castVote
  rw [if_pos hflag, hobj, hadmin]
  simp only [Bool.false_eq_true, if_false, hfind, hone]
  refine ⟨_, rfl, ?_, ?_, ⟨_, setObj_self .., ?_, ?_, rfl⟩⟩
  · simp
  · unfold pairCount
    simp only [List.countP_map]
    congr 1
    funext e2
    simp only [Function.comp_apply]
    by_cases hm : entryMatches e2 v.objectid v.voterid = true
    · rw [if_pos hm]
      unfold entryMatches
      exact rfl
    · rw [if_neg hm]
  · intro hne
    constructor
    · simp [Ne.symm hne, hne]
    · simp [Ne.symm hne, hne]
  · intro f hfp hfc
    simp [hfp, hfc]

/-- C2 witness: the spec's vote-change example — voter 20 voted a on
object 1 (tally a:1) and now changes the vote to c. -/
theorem c2_vote_change_witness :
    voteChangeState.objects changeVote.objectid = some voteChangeObj ∧
    changeVote.isAdmin = false ∧
    changeVote.chosenFlag ∈ exampleConfig.flags ∧
    findEntry voteChangeState changeVote.objectid changeVote.voterid =
      some priorEntry ∧
    setFlagsOf exampleConfig priorEntry = ["a"] ∧
    (∃ s2, castVote exampleConfig changeVote voteChangeState =
        Except.ok s2 ∧
      s2.ledger.length = voteChangeState.ledger.length ∧
      pairCount s2 changeVote.objectid changeVote.voterid =
        pairCount voteChangeState changeVote.objectid changeVote.voterid ∧
      (∃ obj2, s2.objects changeVote.objectid = some obj2 ∧
        ("a" ≠ changeVote.chosenFlag →
          obj2.tally "a" = voteChangeObj.tally "a" - 1 ∧
          obj2.tally changeVote.chosenFlag =
            voteChangeObj.tally changeVote.chosenFlag + 1) ∧
        (∀ f, f ≠ "a" → f ≠ changeVote.chosenFlag →
          obj2.tally f = voteChangeObj.tally f) ∧
        obj2.status = evaluate exampleConfig obj2.tally)) :=
  ⟨rfl, rfl, by decide, rfl, by decide,
   c2_vote_change exampleConfig changeVote voteChangeState voteChangeObj
     priorEntry "a" rfl rfl (by decide) rfl (by decide)⟩

/-- C6: a non-admin vote submission against an object whose review status
is complete-good or complete-bad is rejected with a typed error —
ObjectComplete when this voter has no prior ledger row (new voters are
locked out too), AlreadyReviewed when a prior row exists — and the store
is unchanged by the rejected submission. -/
theorem c6_complete_gate (cfg : Config) (v : Vote) (s : StoreState)
    (obj : ObjData)
    (hobj : s.objects v.objectid = some obj)
    (hdone : obj.status = ReviewStatus.completeGood ∨
             obj.status = ReviewStatus.completeBad)
    (hadmin : v.isAdmin = false) :
    (∃ err, submitVote cfg v s = Except.error err ∧
      (err = VoteError.alreadyReviewed ∨ err = VoteError.objectComplete) ∧
      (findEntry s v.objectid v.voterid = none →
        err = VoteError.objectComplete) ∧
      (∀ en, findEntry s v.objectid v.voterid = some en →
        err = VoteError.alreadyReviewed)) ∧
    commitState s (submitVote cfg v s) = s := by
  unfold submitVote
  simp only [hobj]
  rw [if_pos ⟨hdone, hadmin⟩]
  cases hf : findEntry s v.objectid v.voterid with
  | none =>
    exact ⟨⟨VoteError.objectComplete, rfl, Or.inr rfl, fun _ => rfl,
      fun en hen => Option.noConfusion hen⟩, rfl⟩
  | some en =>
    exact ⟨⟨VoteError.alreadyReviewed, rfl, Or.inl rfl,
      fun h => Option.noConfusion h,
      fun _ _ => rfl⟩, rfl⟩

/-- C6 witness: a non-admin vote by a new voter (31) against completed
object 1. -/
theorem c6_complete_gate_witness :
    completeState.objects lateVote.objectid = some completeObj ∧
    (completeObj.status = ReviewStatus.completeGood ∨
     completeObj.status = ReviewStatus.completeBad) ∧
    lateVote.isAdmin = false ∧
    ((∃ err, submitVote exampleConfig lateVote completeState =
        Except.error err ∧
      (err = VoteError.alreadyReviewed ∨ err = VoteError.objectComplete) ∧
      (findEntry completeState lateVote.objectid lateVote.voterid = none →
        err = VoteError.objectComplete) ∧
      (∀ en, findEntry completeState lateVote.objectid lateVote.voterid =
          some en → err = VoteError.alreadyReviewed)) ∧
     commitState completeState (submitVote exampleConfig lateVote
       completeState) = completeState) :=
  ⟨rfl, Or.inl rfl, rfl,
   c6_complete_gate exampleConfig lateVote completeState completeObj rfl
     (Or.inl rfl) rfl⟩

/-- C4: each invocation of the vote mutation protocol either fails, in
which case the committed store is the unchanged pre-state (no partial
application of ledger, tally or status writes), or commits a single state
in which the ledger holds a row of this voter for this object carrying the
chosen flag and the object's stored status equals the Evaluator applied to
its stored tally — the three writes land together or not at all. -/
theorem c4_all_or_nothing (cfg : Config) (v : Vote) (s : StoreState) :
    (∃ err, castVote cfg v s = Except.error err ∧
      commitState s (castVote cfg v s) = s) ∨
    (∃ s2, castVote cfg v s = Except.ok s2 ∧
      commitState s (castVote cfg v s) = s2 ∧
      (∃ en, en ∈ s2.ledger ∧ en.objectid = v.objectid ∧
        en.voterid = v.voterid ∧ en.flags v.chosenFlag = true) ∧
      (∃ obj2, s2.objects v.objectid = some obj2 ∧
        obj2.status = evaluate cfg obj2.tally)) := by
  unfold castVote
  split
  · split
    · exact Or.inl ⟨VoteError.notFound, rfl, rfl⟩
    · split
      · refine Or.inr ⟨_, rfl, rfl,
          ⟨{ objectid := v.objectid, voterid := v.voterid, votername := v.votername, flags := oneHotFlags v.chosenFlag, comment := "ADMIN override: " ++ v.comment },
           ?_, rfl, rfl, ?_⟩,
          ⟨_, setObj_self .., rfl⟩⟩
        · simp
        · simp [oneHotFlags]
      · split
        · refine Or.inr ⟨_, rfl, rfl,
            ⟨{ objectid := v.objectid, voterid := v.voterid, votername := v.votername, flags := oneHotFlags v.chosenFlag, comment := v.comment },
             ?_, rfl, rfl, ?_⟩,
            ⟨_, setObj_self .., rfl⟩⟩
          · simp
          · simp [oneHotFlags]
        · split
          · rename_i e hfind xs prev hone
            have hfind2 : List.find?
                (fun x => entryMatches x v.objectid v.voterid) s.ledger =
                some e := hfind
            have hmem : e ∈ s.ledger := List.mem_of_find?_eq_some hfind2
            have hmatch0 := List.find?_some hfind2
            have hmatch : entryMatches e v.objectid v.voterid = true := hmatch0
            refine Or.inr ⟨_, rfl, rfl, ?_, ⟨_, setObj_self .., rfl⟩⟩
            refine ⟨{ e with flags := oneHotFlags v.chosenFlag, comment := v.comment }, ?_, ?_, ?_, ?_⟩
            · have heq : (fun e2 => if entryMatches e2 v.objectid v.voterid = true then { e2 with flags := oneHotFlags v.chosenFlag, comment := v.comment } else e2) e = { e with flags := oneHotFlags v.chosenFlag, comment := v.comment } := by
                simp [hmatch]
              exact heq ▸ List.mem_map_of_mem _ hmem
            · exact ((entryMatches_iff e _ _).1 hmatch).1
            · exact ((entryMatches_iff e _ _).1 hmatch).2
            · simp [oneHotFlags]
          · exact Or.inl ⟨VoteError.ledgerCorruption, rfl, rfl⟩
  · exact Or.inl ⟨VoteError.invalidVote, rfl, rfl⟩

theorem ledgerCount_eq_countP (s : StoreState) (oid : Nat) (f : String) :
    ledgerCount s oid f =
      s.ledger.countP (fun e => e.objectid == oid && e.flags f) := by
  unfold ledgerCount
  rw [List.countP_eq_length_filter]

theorem map_update_id_of_countP_zero (l : List Entry)
    (pair : Entry → Bool) (g : Entry → Entry)
    (h : l.countP pair = 0) :
    l.map (fun x => if pair x then g x else x) = l := by
  induction l with
  | nil => rfl
  | cons a t ih =>
    rw [List.countP_cons] at h
    have hpa : pair a = false := by
      by_cases hp : pair a = true
      · simp only [hp, if_true] at h
        omega
      · simpa using hp
    have ht : t.countP pair = 0 := by
      simp only [hpa, Bool.false_eq_true, if_false, Nat.add_zero] at h
      exact h
    simp [hpa, ih ht]

theorem countP_map_update (l : List Entry) (pair : Entry → Bool)
    (g : Entry → Entry) (q : Entry → Bool) (e : Entry)
    (hfind : l.find? pair = some e) (hcount : l.countP pair = 1) :
    (l.map (fun x => if pair x then g x else x)).countP q =
      l.countP q - (if q e then 1 else 0) + (if q (g e) then 1 else 0) := by
  induction l with
  | nil => cases hfind
  | cons a t ih =>
    rw [List.countP_cons] at hcount
    by_cases hp : pair a = true
    · have ha : a = e := by
        have h2 : some a = some e := by
          rw [← hfind]
          simp [List.find?_cons, hp]
        exact Option.some.inj h2
      subst ha
      have ht : t.countP pair = 0 := by
        simp only [hp, if_true] at hcount
        omega
      rw [List.map_cons, if_pos hp, map_update_id_of_countP_zero t pair g ht,
        List.countP_cons, List.countP_cons]
      by_cases hqa : q a = true <;> by_cases hqg : q (g a) = true <;>
        simp [hqa, hqg]
    · have hfa : pair a = false := by simpa using hp
      have hfind2 : t.find? pair = some e := by
        rw [← hfind]
        simp [List.find?_cons, hfa]
      have ht : t.countP pair = 1 := by
        simp only [hfa, Bool.false_eq_true, if_false, Nat.add_zero] at hcount
        exact hcount
      have hmem : e ∈ t := List.mem_of_find?_eq_some hfind2
      have hqe_le : (if q e then 1 else 0) ≤ t.countP q := by
        by_cases hq : q e = true
        · have hpos : 0 < t.countP q := List.countP_pos_iff.2 ⟨e, hmem, hq⟩
          simpa [hq] using hpos
        · simp [hq]
      rw [List.map_cons, if_neg (by simp [hfa]), List.countP_cons,
        List.countP_cons, ih hfind2 ht]
      by_cases hqa : q a = true
      all_goals simp [hqa]
      all_goals omega

theorem setFlags_one_hot (cfg : Config) (e : Entry) (prev : String)
    (hone : setFlagsOf cfg e = [prev]) :
    ∀ f, f ∈ cfg.flags → (e.flags f = true ↔ f = prev) := by
  intro f hf
  constructor
  · intro hef
    have hmem : f ∈ setFlagsOf cfg e := by
      unfold setFlagsOf
      exact List.mem_filter.2 ⟨hf, hef⟩
    rw [hone] at hmem
    simpa using hmem
  · intro hfp
    subst hfp
    have hmem : f ∈ setFlagsOf cfg e := by
      rw [hone]
      simp
    unfold setFlagsOf at hmem
    exact (List.mem_filter.1 hmem).2

/-- C3 (amended): the non-admin vote-insert operation preserves tally/ledger
consistency — starting from a consistent store with at most one ledger row
for the acting (objectid, voterid) pair, a committed non-admin vote leaves
every object's stored tally count of every configured flag equal to the
number of ledger rows of that object carrying the flag. -/
theorem c3_nonadmin_vote_preserves_consistency (cfg : Config) (v : Vote)
    (s s2 : StoreState)
    (hadmin : v.isAdmin = false)
    (hcons : consistent cfg s)
    (hpair : pairCount s v.objectid v.voterid ≤ 1)
    (hok : castVote cfg v s = Except.ok s2) :
    consistent cfg s2 := by
  unfold castVote at hok
  split at hok
  · split at hok
    · cases hok
    · split at hok
      · rename_i hadm
        rw [hadmin] at hadm
        simp at hadm
      · split at hok
        · -- first vote: a one-hot row is appended and the chosen flag
          -- count is incremented
          rename_i xo obj hobj hadm xe hfind
          cases hok
          intro oid obj2 hobj2 f hf
          simp only [setObj] at hobj2
          by_cases hoid : oid = v.objectid
          · subst hoid
            rw [if_pos rfl] at hobj2
            cases hobj2
            rw [ledgerCount_eq_countP]
            simp only [List.countP_append, List.countP_cons, List.countP_nil]
            have hbase := hcons v.objectid obj hobj f hf
            rw [ledgerCount_eq_countP] at hbase
            by_cases hfc : f = v.chosenFlag
            · subst hfc
              simp [oneHotFlags, hbase]
            · have hocf : oneHotFlags v.chosenFlag f = false := by
                simp [oneHotFlags]
                exact hfc
              simp [hocf, hfc, hbase.symm]
          · rw [if_neg hoid] at hobj2
            have hbase := hcons oid obj2 hobj2 f hf
            rw [ledgerCount_eq_countP] at hbase
            rw [ledgerCount_eq_countP]
            simp only [List.countP_append, List.countP_cons, List.countP_nil]
            have hne : (v.objectid == oid) = false := by
              simp
              exact fun h => hoid h.symm
            simp [hne, hbase.symm]
        · -- vote change: the unique pair row is rewritten in place and one
          -- count moves from the previous flag to the chosen flag
          rename_i xo obj hobj hadm xe e hfind
          split at hok
          case h_2 => cases hok
          case h_1 prev hone =>
            cases hok
            have hfind2 : List.find?
                (fun x => entryMatches x v.objectid v.voterid) s.ledger =
                some e := hfind
            have hmem : e ∈ s.ledger := List.mem_of_find?_eq_some hfind2
            have hmatch0 := List.find?_some hfind2
            have hmatch : entryMatches e v.objectid v.voterid = true :=
              hmatch0
            have hpair1 : s.ledger.countP
                (fun x => entryMatches x v.objectid v.voterid) = 1 := by
              have hge : 0 < s.ledger.countP
                  (fun x => entryMatches x v.objectid v.voterid) :=
                List.countP_pos_iff.2 ⟨e, hmem, hmatch⟩
              have hle := hpair
              unfold pairCount at hle
              omega
            have heobj : e.objectid = v.objectid :=
              ((entryMatches_iff e _ _).1 hmatch).1
            have honehot := setFlags_one_hot cfg e prev hone
            intro oid obj2 hobj2 f hf
            simp only [setObj] at hobj2
            by_cases hoid : oid = v.objectid
            · subst hoid
              rw [if_pos rfl] at hobj2
              cases hobj2
              rw [ledgerCount_eq_countP]
              rw [countP_map_update s.ledger
                (fun x => entryMatches x v.objectid v.voterid)
                (fun x => { x with flags := oneHotFlags v.chosenFlag, comment := v.comment })
                (fun x => x.objectid == v.objectid && x.flags f) e hfind2
                hpair1]
              have hbase := hcons v.objectid obj hobj f hf
              rw [ledgerCount_eq_countP] at hbase
              have hqge : ∀ hq : (e.objectid == v.objectid && e.flags f) =
                  true, 1 ≤ s.ledger.countP
                    (fun x => x.objectid == v.objectid && x.flags f) :=
                fun hq => List.countP_pos_iff.2 ⟨e, hmem, hq⟩
              have hbeq : (e.objectid == v.objectid) = true := by
                simp [heobj]
              dsimp only
              by_cases hfp : f = prev <;> by_cases hfc : f = v.chosenFlag
              · subst hfc
                subst hfp
                have hef : e.flags v.chosenFlag = true :=
                  (honehot _ hf).2 rfl
                have h1 := hqge (by simp [hbeq, hef])
                rw [if_pos rfl, if_pos rfl]
                simp only [hbeq, hef, Bool.true_and, if_pos]
                have hoc : oneHotFlags v.chosenFlag v.chosenFlag = true := by
                  simp [oneHotFlags]
                rw [hoc]
                simp only [if_pos]
                omega
              · subst hfp
                have hef : e.flags f = true := (honehot f hf).2 rfl
                have h1 := hqge (by simp [hbeq, hef])
                have hoc : oneHotFlags v.chosenFlag f = false := by
                  simp [oneHotFlags]
                  exact hfc
                rw [if_neg hfc, if_pos rfl]
                simp only [hbeq, hef, Bool.true_and, if_pos, hoc,
                  Bool.false_eq_true, if_false, Nat.add_zero]
                omega
              · subst hfc
                have hef : e.flags v.chosenFlag = false := by
                  by_cases h0 : e.flags v.chosenFlag = true
                  · exact absurd ((honehot _ hf).1 h0) hfp
                  · simpa using h0
                have hoc : oneHotFlags v.chosenFlag v.chosenFlag = true := by
                  simp [oneHotFlags]
                rw [if_pos rfl, if_neg hfp]
                simp only [hbeq, hef, Bool.true_and, Bool.and_false,
                  Bool.false_eq_true, if_false, Nat.sub_zero, hoc, if_pos]
                omega
              · have hef : e.flags f = false := by
                  by_cases h0 : e.flags f = true
                  · exact absurd ((honehot f hf).1 h0) hfp
                  · simpa using h0
                have hoc : oneHotFlags v.chosenFlag f = false := by
                  simp [oneHotFlags]
                  exact hfc
                rw [if_neg hfc, if_neg hfp]
                simp only [hbeq, hef, Bool.true_and, Bool.and_false,
                  Bool.false_eq_true, if_false, Nat.sub_zero, hoc,
                  Nat.add_zero]
                omega
            · rw [if_neg hoid] at hobj2
              have hbase := hcons oid obj2 hobj2 f hf
              rw [ledgerCount_eq_countP] at hbase
              rw [ledgerCount_eq_countP, List.countP_map, hbase]
              refine List.countP_congr ?_
              intro x hx
              simp only [Function.comp_apply]
              by_cases hm : entryMatches x v.objectid v.voterid = true
              · have hxo : x.objectid = v.objectid :=
                  ((entryMatches_iff x _ _).1 hm).1
                have hxo2 : (x.objectid == oid) = false := by
                  simp [hxo]
                  exact fun h => hoid h.symm
                simp [hm, hxo2]
              · simp [hm]
  · cases hok

/-- C3 counterexample: from a consistent store (object 1, tally a:1, one
ledger row carrying a), the flag-update operation — which overwrites the
stored flags value with whatever the caller supplies — commits a state where
the stored count of flag a is 5 while exactly one ledger row carries a, and
likewise the admin-override path commits a forced tally (b:2, a:0) while
the ledger holds one row carrying b and one carrying a: neither operation
re-establishes the tally/ledger equality on commit. -/
theorem c3_consistency_not_preserved_counterexample :
    tallyOf voteChangeState 1 "a" = ledgerCount voteChangeState 1 "a" ∧
    (∀ f, f ∈ exampleConfig.flags →
      tallyOf voteChangeState 1 f = ledgerCount voteChangeState 1 f) ∧
    tallyOf (update_object_flags 1 (fun f => if f = "a" then 5 else 0)
      voteChangeState) 1 "a" = 5 ∧
    ledgerCount (update_object_flags 1 (fun f => if f = "a" then 5 else 0)
      voteChangeState) 1 "a" = 1 ∧
    tallyOf (update_object_flags 1 (fun f => if f = "a" then 5 else 0)
        voteChangeState) 1 "a" ≠
      ledgerCount (update_object_flags 1 (fun f => if f = "a" then 5 else 0)
        voteChangeState) 1 "a" ∧
    tallyOf (commitState voteChangeState
        (castVote exampleConfig adminVote voteChangeState)) 1 "b" = 2 ∧
    ledgerCount (commitState voteChangeState
        (castVote exampleConfig adminVote voteChangeState)) 1 "b" = 1 ∧
    tallyOf (commitState voteChangeState
        (castVote exampleConfig adminVote voteChangeState)) 1 "a" = 0 ∧
    ledgerCount (commitState voteChangeState
        (castVote exampleConfig adminVote voteChangeState)) 1 "a" = 1 := by
  refine ⟨rfl, ?_, rfl, rfl, by decide, rfl, rfl, rfl, rfl⟩
  intro f hf
  fin_cases hf <;> rfl

/-- C3 witness: the amended preservation theorem applied to the vote-change
example — voter 20 switching object 1 from a to c out of the consistent
one-row store. -/
theorem c3_nonadmin_vote_preserves_consistency_witness :
    changeVote.isAdmin = false ∧
    consistent exampleConfig voteChangeState ∧
    pairCount voteChangeState changeVote.objectid changeVote.voterid ≤ 1 ∧
    castVote exampleConfig changeVote voteChangeState =
      Except.ok (commitState voteChangeState
        (castVote exampleConfig changeVote voteChangeState)) ∧
    consistent exampleConfig (commitState voteChangeState
      (castVote exampleConfig changeVote voteChangeState)) := by
  have hcons : consistent exampleConfig voteChangeState := by
    intro oid obj hobj f hf
    by_cases hoid : oid = 1
    · subst hoid
      have hobj2 : obj = voteChangeObj := by
        have h0 := hobj
        simp [voteChangeState] at h0
        exact h0.symm
      subst hobj2
      fin_cases hf <;> rfl
    · exact absurd hobj (by simp [voteChangeState, hoid])
  refine ⟨rfl, hcons, by decide, rfl, ?_⟩
  exact c3_nonadmin_vote_preserves_consistency exampleConfig changeVote
    voteChangeState _ rfl hcons (by decide) rfl

theorem sorted_le_getLast (l : List Nat) (h : List.Sorted (· < ·) l)
    (hne : l ≠ []) : ∀ x ∈ l, x ≤ l.getLast hne := by
  induction l with
  | nil => exact absurd rfl hne
  | cons a t ih =>
    intro x hx
    rw [List.sorted_cons] at h
    cases t with
    | nil =>
      simp only [List.mem_singleton] at hx
      subst hx
      simp [List.getLast]
    | cons b t2 =>
      rw [List.getLast_cons (by simp : (b :: t2) ≠ [])]
      rcases List.mem_cons.1 hx with hxa | hxt
      · subst hxa
        have hlt : x < (b :: t2).getLast (by simp) :=
          h.1 _ (List.getLast_mem _)
        omega
      · exact ih h.2 (by simp) x hxt

theorem filter_after_page (rows : List Nat) (N : Nat)
    (hsort : List.Sorted (· < ·) rows) (hne : rows.take N ≠ []) :
    rows.filter (fun k => lastKeyidOf (rows.take N) + 1 ≤ k) =
      rows.drop N := by
  have hsplit : rows.take N ++ rows.drop N = rows := List.take_append_drop N rows
  have hpw : List.Pairwise (· < ·) (rows.take N ++ rows.drop N) := by
    rw [hsplit]
    exact hsort
  rw [List.pairwise_append] at hpw
  obtain ⟨h1, h2, hcross⟩ := hpw
  have hlast : lastKeyidOf (rows.take N) = (rows.take N).getLast hne := by
    unfold lastKeyidOf
    rw [List.getLastD_eq_getLast?, List.getLast?_eq_getLast _ hne]
    rfl
  have hrw : rows.filter (fun k => lastKeyidOf (rows.take N) + 1 ≤ k) =
      (rows.take N ++ rows.drop N).filter
        (fun k => lastKeyidOf (rows.take N) + 1 ≤ k) := by
    rw [hsplit]
  rw [hrw, List.filter_append]
  have hf1 : (rows.take N).filter
      (fun k => lastKeyidOf (rows.take N) + 1 ≤ k) = [] := by
    rw [List.filter_eq_nil_iff]
    intro a ha
    have hle : a ≤ (rows.take N).getLast hne :=
      sorted_le_getLast _ h1 hne a ha
    rw [hlast]
    simp only [decide_eq_true_eq]
    omega
  have hf2 : (rows.drop N).filter
      (fun k => lastKeyidOf (rows.take N) + 1 ≤ k) = rows.drop N := by
    rw [List.filter_eq_self]
    intro a ha
    have hlt : (rows.take N).getLast hne < a :=
      hcross _ (List.getLast_mem hne) a ha
    rw [hlast]
    simp only [decide_eq_true_eq]
    omega
  rw [hf1, hf2]
  simp

/-- C7: over a catalog whose filtered rows are in strictly ascending keyid
order starting at keyid 1 or above, the anchor=start page from keyid 1 and
the follow-up anchor=start page from lastReturnedKeyid + 1 each hold at
most pageSize rows, share no row, and together form an exact prefix of the
filtered set in keyid order — no duplicates and no gaps. -/
theorem c7_keyset_pagination (rows : List Nat) (N : Nat)
    (hsort : List.Sorted (· < ·) rows)
    (hpos : ∀ k ∈ rows, 1 ≤ k) :
    (page rows 1 N).length ≤ N ∧
    (page rows (lastKeyidOf (page rows 1 N) + 1) N).length ≤ N ∧
    (∀ k ∈ page rows 1 N,
      k ∉ page rows (lastKeyidOf (page rows 1 N) + 1) N) ∧
    page rows 1 N ++ page rows (lastKeyidOf (page rows 1 N) + 1) N =
      rows.take ((page rows 1 N).length +
        (page rows (lastKeyidOf (page rows 1 N) + 1) N).length) := by
  have hfilter1 : rows.filter (fun k => decide (1 ≤ k)) = rows := by
    rw [List.filter_eq_self]
    intro a ha
    simpa using hpos a ha
  have hp1 : page rows 1 N = rows.take N := by
    unfold page
    rw [hfilter1]
  by_cases hne : rows.take N = []
  · have hcase := List.take_eq_nil_iff.1 hne
    have hp2 : page rows (lastKeyidOf (rows.take N) + 1) N = [] := by
      rcases hcase with h0 | h0
      · simp [page, h0]
      · simp [page, h0]
    rw [hp1, hp2, hne]
    simp
  · have hp2 : page rows (lastKeyidOf (rows.take N) + 1) N =
        (rows.drop N).take N := by
      unfold page
      rw [filter_after_page rows N hsort hne]
    have hl1 : (rows.take N).length ≤ N := by
      rw [List.length_take]
      omega
    have hl2 : ((rows.drop N).take N).length ≤ N := by
      rw [List.length_take]
      omega
    have happ : rows.take N ++ (rows.drop N).take N =
        rows.take ((rows.take N).length + ((rows.drop N).take N).length) := by
      by_cases hNl : rows.length ≤ N
      · have h1 : rows.take N = rows := List.take_of_length_le hNl
        have h2 : rows.drop N = [] := List.drop_eq_nil_iff.2 hNl
        rw [h1, h2]
        simp
      · push_neg at hNl
        have hlen1 : (rows.take N).length = N := by
          rw [List.length_take]
          omega
        rw [hlen1, List.take_add]
        congr 1
        rw [List.take_eq_take]
        simp only [List.length_take, List.length_drop]
        omega
    have hnodup : (rows.take N ++ (rows.drop N).take N).Nodup := by
      rw [happ]
      exact List.Nodup.sublist (List.take_sublist _ _) hsort.nodup
    have hdisj := (List.nodup_append.1 hnodup).2.2
    rw [hp1, hp2]
    exact ⟨hl1, hl2, fun k hk => hdisj hk, happ⟩

/-- C7 witness: the round trip over rows 1..5 with page size 2 — pages
[1, 2] then [3, 4], disjoint and gap-free. -/
theorem c7_keyset_pagination_witness :
    List.Sorted (· < ·) [1, 2, 3, 4, 5] ∧
    (∀ k ∈ [1, 2, 3, 4, 5], 1 ≤ k) ∧
    ((page [1, 2, 3, 4, 5] 1 2).length ≤ 2 ∧
     (page [1, 2, 3, 4, 5]
        (lastKeyidOf (page [1, 2, 3, 4, 5] 1 2) + 1) 2).length ≤ 2 ∧
     (∀ k ∈ page [1, 2, 3, 4, 5] 1 2,
       k ∉ page [1, 2, 3, 4, 5]
        (lastKeyidOf (page [1, 2, 3, 4, 5] 1 2) + 1) 2) ∧
     page [1, 2, 3, 4, 5] 1 2 ++
       page [1, 2, 3, 4, 5]
        (lastKeyidOf (page [1, 2, 3, 4, 5] 1 2) + 1) 2 =
       [1, 2, 3, 4, 5].take ((page [1, 2, 3, 4, 5] 1 2).length +
        (page [1, 2, 3, 4, 5]
          (lastKeyidOf (page [1, 2, 3, 4, 5] 1 2) + 1) 2).length)) :=
  ⟨by decide, by decide,
   c7_keyset_pagination [1, 2, 3, 4, 5] 2 (by decide) (by decide)⟩

theorem update_review_assignments_frame (t : ReviewerTable)
    (c : List Nat) (uid : Nat) (b : Bool) (oid : Nat) (v : Option Nat)
    (h : oid ∉ c) :
    ((oid, v) ∈ update_review_assignments t c uid b ↔ (oid, v) ∈ t) := by
  unfold update_review_assignments
  cases b with
  | false =>
    simp only [Bool.false_eq_true, if_false]
    constructor
    · intro hm
      rcases List.mem_append.1 hm with h1 | h2
      · exact h1
      · exfalso
        rcases List.mem_map.1 h2 with ⟨x, hx, hxe⟩
        injection hxe with hx1 hx2
        subst hx1
        exact h hx
    · intro hm
      exact List.mem_append_left _ hm
  | true =>
    simp only [if_true]
    constructor
    · intro hm
      rcases List.mem_map.1 hm with ⟨r, hr, hre⟩
      by_cases hrc : r.1 ∈ c
      · rw [if_pos hrc] at hre
        injection hre with hr1 hr2
        subst hr1
        exact absurd hrc h
      · rw [if_neg hrc] at hre
        subst hre
        exact hr
    · intro hm
      have heq : (fun r : Nat × Option Nat =>
          if r.1 ∈ c then (r.1, none) else r) (oid, v) = (oid, v) := by
        simp [h]
      exact heq ▸ List.mem_map_of_mem _ hm

theorem update_review_assignments_null (t : ReviewerTable) (c : List Nat)
    (uid : Nat) (oid : Nat) (v : Option Nat) (h : oid ∈ c) :
    (oid, v) ∈ update_review_assignments t c uid true → v = none := by
  intro hm
  unfold update_review_assignments at hm
  simp only [if_true] at hm
  rcases List.mem_map.1 hm with ⟨r, hr, hre⟩
  by_cases hrc : r.1 ∈ c
  · rw [if_pos hrc] at hre
    injection hre with hr1 hr2
    exact hr2.symm
  · rw [if_neg hrc] at hre
    subst hre
    exact absurd h hrc

theorem update_review_assignments_preserves_null (t : ReviewerTable)
    (c : List Nat) (uid : Nat) (oid : Nat)
    (hnull : ∀ v, (oid, v) ∈ t → v = none) :
    ∀ v, (oid, v) ∈ update_review_assignments t c uid true → v = none := by
  intro v hm
  unfold update_review_assignments at hm
  simp only [if_true] at hm
  rcases List.mem_map.1 hm with ⟨r, hr, hre⟩
  by_cases hrc : r.1 ∈ c
  · rw [if_pos hrc] at hre
    injection hre with hr1 hr2
    exact hr2.symm
  · rw [if_neg hrc] at hre
    subst hre
    exact hnull v hr

theorem applyChunks_preserves_null (uid oid : Nat) :
    ∀ (chunks : List (List Nat)) (t : ReviewerTable),
      (∀ v, (oid, v) ∈ t → v = none) →
      ∀ v, (oid, v) ∈ applyChunks t chunks uid true → v = none := by
  intro chunks
  induction chunks with
  | nil => intro t hnull; exact hnull
  | cons c cs ih =>
    intro t hnull
    exact ih _ (update_review_assignments_preserves_null t c uid oid hnull)

theorem applyChunks_null_of_mem (uid oid : Nat) :
    ∀ (chunks : List (List Nat)) (t : ReviewerTable),
      (∃ c ∈ chunks, oid ∈ c) →
      ∀ v, (oid, v) ∈ applyChunks t chunks uid true → v = none := by
  intro chunks
  induction chunks with
  | nil =>
    intro t hin
    rcases hin with ⟨c, hc, _⟩
    cases hc
  | cons c cs ih =>
    intro t hin
    rcases hin with ⟨c2, hc2, hoid⟩
    rcases List.mem_cons.1 hc2 with rfl | hc2t
    · exact applyChunks_preserves_null uid oid cs _
        (fun v hv => update_review_assignments_null t c2 uid oid v hoid hv)
    · exact ih _ ⟨c2, hc2t, hoid⟩

theorem applyChunks_false_mono (uid oid : Nat) (v : Option Nat) :
    ∀ (chunks : List (List Nat)) (t : ReviewerTable),
      (oid, v) ∈ t → (oid, v) ∈ applyChunks t chunks uid false := by
  intro chunks
  induction chunks with
  | nil => intro t h; exact h
  | cons c cs ih =>
    intro t h
    refine ih _ ?_
    unfold update_review_assignments
    simp only [Bool.false_eq_true, if_false]
    exact List.mem_append_left _ h

theorem applyChunks_mem_of_mem (uid oid : Nat) :
    ∀ (chunks : List (List Nat)) (t : ReviewerTable),
      (∃ c ∈ chunks, oid ∈ c) →
      (oid, some uid) ∈ applyChunks t chunks uid false := by
  intro chunks
  induction chunks with
  | nil =>
    intro t hin
    rcases hin with ⟨c, hc, _⟩
    cases hc
  | cons c cs ih =>
    intro t hin
    rcases hin with ⟨c2, hc2, hoid⟩
    rcases List.mem_cons.1 hc2 with rfl | hc2t
    · refine applyChunks_false_mono uid oid (some uid) cs _ ?_
      unfold update_review_assignments
      simp only [Bool.false_eq_true, if_false]
      exact List.mem_append_right _ (List.mem_map_of_mem _ hoid)
    · exact ih _ ⟨c2, hc2t, hoid⟩

theorem applyChunks_frame (uid oid : Nat) (b : Bool) (v : Option Nat) :
    ∀ (chunks : List (List Nat)) (t : ReviewerTable),
      (∀ c ∈ chunks, oid ∉ c) →
      ((oid, v) ∈ applyChunks t chunks uid b ↔ (oid, v) ∈ t) := by
  intro chunks
  induction chunks with
  | nil => intro t _; exact Iff.rfl
  | cons c cs ih =>
    intro t hout
    have h1 := ih (update_review_assignments t c uid b)
      (fun c2 hc2 => hout c2 (List.mem_cons_of_mem _ hc2))
    exact h1.trans (update_review_assignments_frame t c uid b oid v
      (hout c (List.mem_cons_self _ _)))

theorem chunker_flatten_aux {α : Type} (k : Nat) :
    ∀ (n : Nat) (seq : List α), seq.length ≤ n →
      (chunker seq (k + 1)).flatten = seq := by
  intro n
  induction n with
  | zero =>
    intro seq hlen
    have h0 : seq = [] := List.length_eq_zero.1 (by omega)
    subst h0
    simp [chunker]
  | succ n ih =>
    intro seq hlen
    cases seq with
    | nil => simp [chunker]
    | cons a l =>
      simp only [chunker]
      rw [List.flatten_cons,
        ih ((a :: l).drop (k + 1)) (by simp only [List.length_drop, List.length_cons] at hlen ⊢; omega)]
      exact List.take_append_drop _ _

theorem chunker_flatten {α : Type} (seq : List α) (k : Nat) (hk : 0 < k) :
    (chunker seq k).flatten = seq := by
  obtain ⟨k2, rfl⟩ : ∃ k2, k = k2 + 1 := ⟨k - 1, by omega⟩
  exact chunker_flatten_aux k2 seq.length seq (Nat.le_refl _)

theorem chunker_sizes_aux {α : Type} (k : Nat) :
    ∀ (n : Nat) (seq : List α), seq.length ≤ n →
      ∀ c ∈ chunker seq (k + 1), c.length ≤ k + 1 := by
  intro n
  induction n with
  | zero =>
    intro seq hlen
    have h0 : seq = [] := List.length_eq_zero.1 (by omega)
    subst h0
    simp [chunker]
  | succ n ih =>
    intro seq hlen c hc
    cases seq with
    | nil => simp [chunker] at hc
    | cons a l =>
      simp only [chunker, List.mem_cons] at hc
      rcases hc with rfl | hct
      · exact List.length_take_le _ _
      · exact ih ((a :: l).drop (k + 1)) (by simp only [List.length_drop, List.length_cons] at hlen ⊢; omega) c hct

theorem chunker_sizes {α : Type} (seq : List α) (k : Nat) (hk : 0 < k) :
    ∀ c ∈ chunker seq k, c.length ≤ k := by
  obtain ⟨k2, rfl⟩ : ∃ k2, k = k2 + 1 := ⟨k - 1, by omega⟩
  exact chunker_sizes_aux k2 seq.length seq (Nat.le_refl _)

theorem from_file_frame (oid k : Nat) (hk : 0 < k) (v : Option Nat) :
    ∀ (groups : List (Nat × List Nat)) (t : ReviewerTable),
      (∀ g ∈ groups, oid ∉ g.2) →
      ((oid, v) ∈ update_review_assignments_from_file t groups k ↔
        (oid, v) ∈ t) := by
  intro groups
  induction groups with
  | nil => intro t _; exact Iff.rfl
  | cons g gs ih =>
    intro t hout
    have hchunks : ∀ c ∈ chunker g.2 k, oid ∉ c := by
      intro c hc hxc
      have hmem : oid ∈ g.2 := by
        rw [← chunker_flatten g.2 k hk]
        exact List.mem_flatten.2 ⟨c, hc, hxc⟩
      exact hout g (List.mem_cons_self _ _) hmem
    have h1 := ih (applyChunks t (chunker g.2 k) g.1 (g.1 == 0))
      (fun g2 hg2 => hout g2 (List.mem_cons_of_mem _ hg2))
    exact h1.trans (applyChunks_frame g.1 oid (g.1 == 0) v
      (chunker g.2 k) t hchunks)

/-- C9: processing a bulk-assignment input grouped by reviewer userid —
with no objectid shared between two groups — every group is cut by
`chunker` into chunks not exceeding the batch size whose concatenation is
exactly the group (each chunk being one `update_review_assignments`
transaction), every object of a group with the sentinel userid 0 ends up
with every one of its assignment rows nulled, and every object of a group
with a nonzero userid ends up with an assignment row binding it to that
reviewer. -/
theorem c9_bulk_review_assignments (chunksize : Nat) (hk : 0 < chunksize) :
    ∀ (groups : List (Nat × List Nat)) (t : ReviewerTable),
      groups.Pairwise (fun g1 g2 => ∀ x ∈ g1.2, x ∉ g2.2) →
      ∀ g ∈ groups,
        ((chunker g.2 chunksize).flatten = g.2 ∧
         ∀ c ∈ chunker g.2 chunksize, c.length ≤ chunksize) ∧
        ∀ oid ∈ g.2,
          (g.1 = 0 → ∀ v, (oid, v) ∈
              update_review_assignments_from_file t groups chunksize →
              v = none) ∧
          (g.1 ≠ 0 → (oid, some g.1) ∈
              update_review_assignments_from_file t groups chunksize) := by
  intro groups
  induction groups with
  | nil =>
    intro t _ g hg
    cases hg
  | cons g0 gs ih =>
    intro t hdisj g hg
    obtain ⟨hhead, htail⟩ := List.pairwise_cons.1 hdisj
    rcases List.mem_cons.1 hg with rfl | hgt
    · refine ⟨⟨chunker_flatten _ _ hk, chunker_sizes _ _ hk⟩, ?_⟩
      intro oid hoid
      have hpost : ∀ g2 ∈ gs, oid ∉ g2.2 :=
        fun g2 hg2 => hhead g2 hg2 oid hoid
      have hin : ∃ c ∈ chunker g.2 chunksize, oid ∈ c :=
        List.mem_flatten.1 (by
          rw [chunker_flatten g.2 chunksize hk]
          exact hoid)
      constructor
      · intro h0 v hv
        have hv1 : (oid, v) ∈
            applyChunks t (chunker g.2 chunksize) g.1 (g.1 == 0) :=
          (from_file_frame oid chunksize hk v gs _ hpost).1 hv
        have hb : (g.1 == 0) = true := by simp [h0]
        rw [hb] at hv1
        exact applyChunks_null_of_mem g.1 oid (chunker g.2 chunksize) t
          hin v hv1
      · intro h0
        have hb : (g.1 == 0) = false := by simp [h0]
        have hmem : (oid, some g.1) ∈
            applyChunks t (chunker g.2 chunksize) g.1 false :=
          applyChunks_mem_of_mem g.1 oid (chunker g.2 chunksize) t hin
        have hmem2 : (oid, some g.1) ∈
            applyChunks t (chunker g.2 chunksize) g.1 (g.1 == 0) := by
          rw [hb]
          exact hmem
        exact (from_file_frame oid chunksize hk (some g.1) gs _ hpost).2
          hmem2
    · exact ih (applyChunks t (chunker g0.2 chunksize) g0.1 (g0.1 == 0))
        htail g hgt

/-- C9 witness: two groups over a three-row table with batch size 1 —
group 0 unassigns object 1, group 5 assigns objects 2 and 4. -/
theorem c9_bulk_review_assignments_witness :
    0 < 1 ∧
    List.Pairwise (fun g1 g2 => ∀ x ∈ g1.2, x ∉ g2.2)
      [((0 : Nat), [(1 : Nat)]), (5, [2, 4])] ∧
    (∀ g ∈ [((0 : Nat), [(1 : Nat)]), (5, [2, 4])],
      ((chunker g.2 1).flatten = g.2 ∧
       ∀ c ∈ chunker g.2 1, c.length ≤ 1) ∧
      ∀ oid ∈ g.2,
        (g.1 = 0 → ∀ v, (oid, v) ∈
            update_review_assignments_from_file
              [((1 : Nat), some 9), (2, none), (3, some 9)]
              [((0 : Nat), [(1 : Nat)]), (5, [2, 4])] 1 →
            v = none) ∧
        (g.1 ≠ 0 → (oid, some g.1) ∈
            update_review_assignments_from_file
              [((1 : Nat), some 9), (2, none), (3, some 9)]
              [((0 : Nat), [(1 : Nat)]), (5, [2, 4])] 1)) :=
  ⟨by decide, by decide,
   c9_bulk_review_assignments 1 (by decide)
     [((0 : Nat), [(1 : Nat)]), (5, [2, 4])]
     [((1 : Nat), some 9), (2, none), (3, some 9)] (by decide)⟩

end VizInspect
